import Mathlib

/-!
Verification development for the brand-detection ETL pipeline of the
Scout Analytics repository (`apps/etl-brand/brand_matcher.py` and
`apps/etl-brand/main.py`), as a shallow embedding in Lean 4.

Modelling conventions:
* Python `float` arithmetic on confidences/weights is modelled by exact
  rationals (`ℚ`); Python exceptions are modelled with `Except`/error sums;
  the Postgres tables are modelled as in-memory lists of rows.
* Python's `re` patterns are modelled by an abstract syntax tree `RE`
  together with a backtracking matcher that mirrors `re.search` semantics
  (leftmost match, left-biased alternation, greedy `*`/`?`, word
  boundaries, `IGNORECASE`); a pattern string that does not compile
  (`re.error`) is modelled by the constructor `Pat.malformed`.
* The matcher uses explicit fuel for termination; the fuel bound is large
  enough for all concrete evaluations in this file, and general theorems
  never depend on the fuel being exhausted.
-/

deriving instance DecidableEq for Except

-- Batteries marks the `Rat` field operations `@[irreducible]`, which blocks
-- `decide`-style evaluation of concrete confidences; restore the default
-- reducibility for this file.
attribute [local semireducible] Rat.add Rat.mul Rat.inv Rat.sub

namespace Scout

/-- Characters matched by Python's `\w` (ASCII view, as used by `\b`). -/
def isWordChar (c : Char) : Bool := c.isAlphanum || c = '_'

/-- Characters matched by Python's `\s` (ASCII view). -/
def isSpaceChar (c : Char) : Bool :=
  c = ' ' || c = '\t' || c = '\n' || c = '\r' || c = '\x0b' || c = '\x0c'

/-- Abstract syntax of the regular-expression fragment used by the brand
dictionaries: literal characters, `.`, `\s`, `\b`, alternation,
concatenation, `*` and `?`. -/
inductive RE : Type
  | eps                  -- empty pattern
  | char (c : Char)      -- literal character (case-insensitive match)
  | any                  -- `.` : any character except newline
  | spaceCh              -- `\s`
  | wordB                -- `\b`
  | alt (r1 r2 : RE)     -- `r1|r2`, left-biased
  | cat (r1 r2 : RE)
  | star (r : RE)        -- greedy `r*`
  | opt (r : RE)         -- greedy `r?`
deriving DecidableEq, Repr

/-- Whether the character at index `i` of `s` is a word character
(out of range counts as non-word). -/
def wordAt (s : List Char) (i : Nat) : Bool :=
  match s[i]? with
  | some c => isWordChar c
  | none => false

/-- Python `\b`: a word boundary at position `i` of `s`. -/
def isBoundary (s : List Char) (i : Nat) : Bool :=
  (if i = 0 then false else wordAt s (i - 1)) != wordAt s i

/-- Backtracking matcher. `mtch fuel s r i k` tries to match `r` at
position `i` of `s` and passes the end position of each candidate match to
the continuation `k`, in Python's backtracking priority order (left
alternative first, greedy repetition); the first success is returned.
Character comparison is case-insensitive, mirroring `re.IGNORECASE`.
A starred body must consume input on each iteration (Python's empty-match
rule for repetition). -/
def mtch : Nat → List Char → RE → Nat → (Nat → Option Nat) → Option Nat
  | 0, _, _, _, _ => none
  | fuel + 1, s, r, i, k =>
    match r with
    | .eps => k i
    | .char c =>
      match s[i]? with
      | some d => if d.toLower = c.toLower then k (i + 1) else none
      | none => none
    | .any =>
      match s[i]? with
      | some d => if d = '\n' then none else k (i + 1)
      | none => none
    | .spaceCh =>
      match s[i]? with
      | some d => if isSpaceChar d then k (i + 1) else none
      | none => none
    | .wordB => if isBoundary s i then k i else none
    | .alt r1 r2 =>
      (mtch fuel s r1 i k).orElse fun _ => mtch fuel s r2 i k
    | .cat r1 r2 => mtch fuel s r1 i fun j => mtch fuel s r2 j k
    | .opt r1 => (mtch fuel s r1 i k).orElse fun _ => k i
    | .star r1 =>
      (mtch fuel s r1 i fun j =>
        if i < j then mtch fuel s (.star r1) j k else none).orElse
        fun _ => k i

/-- Structural size of a pattern, used to choose a sufficient fuel. -/
def reSize : RE → Nat
  | .eps | .char _ | .any | .spaceCh | .wordB => 1
  | .alt r1 r2 | .cat r1 r2 => reSize r1 + reSize r2 + 1
  | .star r | .opt r => reSize r + 1

/-- Fuel bound: generous enough for every pattern/text pair evaluated
concretely in this development. -/
def fuelFor (r : RE) (s : List Char) : Nat :=
  (reSize r + 2) * (s.length + 2) * 4

/-- Model of `re.search(pattern, s)`: try each start position from the
left; at the first position where the pattern matches, return
`(start, length of the matched substring)` — the length of
`match.group()`. -/
def research (r : RE) (s : List Char) : Option (Nat × Nat) :=
  (List.range (s.length + 1)).findSome? fun i =>
    (mtch (fuelFor r s) s r i some).map fun e => (i, e - i)

/-- A dictionary entry's pattern as stored in the YAML file: the source
string together with its compiled form, or `malformed` when `re.compile`
raises `re.error` on it. -/
inductive Pat : Type
  | ok (src : String) (r : RE)
  | malformed (src : String)
deriving DecidableEq, Repr

/-- The source string of a pattern. -/
def Pat.src : Pat → String
  | .ok s _ => s
  | .malformed s => s

/-- One brand's configuration in the dictionary: the optional `regex` key
and the optional `weight` key, exactly the two keys `predict` reads with
`.get`. -/
structure BrandConfig : Type where
  regex : Option Pat
  weight : Option ℚ
deriving DecidableEq, Repr

/-- An in-memory brand dictionary: brand name → configuration, in
insertion order (Python dicts preserve insertion order). -/
abbrev Brands := List (String × BrandConfig)

/-- The exceptions `BrandMatcher.predict` can raise: `re.error` from a
malformed pattern, and `ZeroDivisionError` from `len(match.group()) /
len(text_lower)` on empty text. -/
inductive PredError : Type
  | regexError
  | zeroDiv
deriving DecidableEq, Repr

/-- `text.lower()` on the character list (ASCII view). -/
def lowerList (text : String) : List Char := text.toList.map Char.toLower

/-- One loop iteration's search, from `BrandMatcher.predict`:
`pattern = brand_config.get('regex', '')` followed by
`re.search(pattern, text_lower, re.IGNORECASE)`. A missing `regex` key
yields the empty pattern; a malformed pattern raises `re.error`.
Returns the length of the matched substring when there is a match. -/
def entrySearch (cfg : BrandConfig) (tl : List Char) : Except PredError (Option Nat) :=
  match cfg.regex.getD (Pat.ok "" RE.eps) with
  | .malformed _ => .error .regexError
  | .ok _ r => .ok ((research r tl).map Prod.snd)

/-- One loop iteration's confidence, from `BrandMatcher.predict`:
when the pattern matches, `confidence = weight * (0.5 + 0.5 * match_ratio)`
with `match_ratio = len(match.group()) / len(text_lower)`; the division
raises `ZeroDivisionError` when `text_lower` is empty. `weight` defaults
to `1.0` via `.get('weight', 1.0)`. -/
def entryConf (cfg : BrandConfig) (tl : List Char) : Except PredError (Option ℚ) :=
  match entrySearch cfg tl with
  | .error e => .error e
  | .ok none => .ok none
  | .ok (some mlen) =>
    if tl.length = 0 then .error .zeroDiv
    else .ok (some ((cfg.weight.getD 1) * (1/2 + 1/2 * ((mlen : ℚ) / (tl.length : ℚ)))))

/-- The accumulator loop of `BrandMatcher.predict`: fold over all entries
keeping `(best_match, best_confidence)`; an entry replaces the current
best exactly when its confidence is strictly greater
(`if confidence > best_confidence`). -/
def scoreFold : Brands → List Char → Option String × ℚ → Except PredError (Option String × ℚ)
  | [], _, acc => .ok acc
  | (name, cfg) :: rest, tl, (best, bc) =>
    match entryConf cfg tl with
    | .error e => .error e
    | .ok none => scoreFold rest tl (best, bc)
    | .ok (some conf) =>
      if bc < conf then scoreFold rest tl (some name, conf)
      else scoreFold rest tl (best, bc)

/-- The record returned by `BrandMatcher.predict`. -/
structure Prediction : Type where
  brand : String
  confidence : ℚ
  model_version : String
  dictionary_version : String
deriving DecidableEq, Repr

/-- `BrandMatcher.predict(text)`, over a dictionary `brands` and the
matcher's version strings. After the loop, `if not best_match` (Python
truthiness: `None` or the empty string) falls back to the fixed pair
`('generic', 0.1)`, and the confidence is clamped with
`min(best_confidence, 1.0)`. -/
def predict (brands : Brands) (text : String) (mv dv : String) :
    Except PredError Prediction :=
  let tl := lowerList text
  match scoreFold brands tl (none, 0) with
  | .error e => .error e
  | .ok (bm, bc) =>
    let p : String × ℚ :=
      match bm with
      | none => ("generic", 1/10)
      | some n => if n = "" then ("generic", 1/10) else (n, bc)
    .ok ⟨p.1, min p.2 1, mv, dv⟩

/-- Concatenation of literal characters, used to transcribe patterns. -/
def rstr (s : String) : RE :=
  s.toList.foldr (fun c r => RE.cat (RE.char c) r) RE.eps

/-- `[\s-]` : a whitespace character or a hyphen. -/
def spaceDash : RE := RE.alt RE.spaceCh (RE.char '-')

/-- `.*` -/
def dotStar : RE := RE.star RE.any

/-- Helper: `\b r \b`. -/
def bounded (r : RE) : RE := RE.cat RE.wordB (RE.cat r RE.wordB)

/-- The hard-coded default dictionary from
`BrandMatcher._load_dictionary`'s `except FileNotFoundError` branch, with
each pattern string transcribed to its `RE` form. -/
def defaultBrands : Brands :=
  [ ("coke", ⟨some (.ok "\\b(coca[\\s-]?cola|coke)\\b"
      (bounded (.alt (.cat (rstr "coca") (.cat (.opt spaceDash) (rstr "cola"))) (rstr "coke")))), some 1⟩),
    ("pepsi", ⟨some (.ok "\\bpepsi\\b" (bounded (rstr "pepsi"))), some 1⟩),
    ("sprite", ⟨some (.ok "\\bsprite\\b" (bounded (rstr "sprite"))), some 1⟩),
    ("red_bull", ⟨some (.ok "\\b(red[\\s-]?bull|redbull)\\b"
      (bounded (.alt (.cat (rstr "red") (.cat (.opt spaceDash) (rstr "bull"))) (rstr "redbull")))), some 1⟩),
    ("monster", ⟨some (.ok "\\bmonster\\b" (bounded (rstr "monster"))), some (8/10)⟩),
    ("gatorade", ⟨some (.ok "\\bgatorade\\b" (bounded (rstr "gatorade"))), some 1⟩),
    ("powerade", ⟨some (.ok "\\bpowerade\\b" (bounded (rstr "powerade"))), some 1⟩),
    ("mountain_dew", ⟨some (.ok "\\b(mountain[\\s-]?dew|mtn[\\s-]?dew)\\b"
      (bounded (.alt (.cat (rstr "mountain") (.cat (.opt spaceDash) (rstr "dew")))
        (.cat (rstr "mtn") (.cat (.opt spaceDash) (rstr "dew")))))), some 1⟩),
    ("generic", ⟨some (.ok ".*" dotStar), some (1/10)⟩) ]

end Scout

-- sanity checks of the regex model on concrete inputs
example : Scout.research Scout.dotStar "ab".toList = some (0, 2) := by decide
example : Scout.research (Scout.bounded (Scout.rstr "pepsi")) (Scout.lowerList "a Pepsi can") =
    some (2, 5) := by decide
example : Scout.research (Scout.bounded (Scout.rstr "pepsi")) (Scout.lowerList "pepsin") = none := by
  decide
example : Scout.research Scout.RE.eps ([] : List Char) = some (0, 0) := by decide

namespace Scout

/-! ### Hashes

Executable MD5 and SHA-256, needed because `BrandMatcher._get_dictionary_version`
is `hashlib.md5(file_bytes).hexdigest()[:8]` while `BrandETL._load_dictionary`
computes `hashlib.sha256(canonical_json).hexdigest()[:8]`. Messages are lists
of byte values. -/

/-- Truncate to a 32-bit word. -/
def w32 (n : Nat) : Nat := n % 4294967296

/-- 32-bit bitwise complement. -/
def bnot32 (x : Nat) : Nat := 4294967295 ^^^ x

/-- 32-bit rotate left. -/
def rotl32 (x s : Nat) : Nat := w32 ((x <<< s) ||| (x >>> (32 - s)))

/-- 32-bit rotate right. -/
def rotr32 (x s : Nat) : Nat := w32 ((x >>> s) ||| (x <<< (32 - s)))

/-- Split a byte list into 64-byte chunks (first argument is fuel). -/
def chunks64 : Nat → List Nat → List (List Nat)
  | 0, _ => []
  | _ + 1, [] => []
  | fuel + 1, l => l.take 64 :: chunks64 fuel (l.drop 64)

/-- MD5 padding: `0x80`, zeros to 56 mod 64, 64-bit little-endian bit length. -/
def md5pad (msg : List Nat) : List Nat :=
  let len := msg.length
  let zeros := (120 - (len + 1) % 64) % 64
  msg ++ [128] ++ List.replicate zeros 0 ++
    (List.range 8).map fun i => ((len * 8) >>> (8 * i)) % 256

/-- The MD5 sine-derived constant table. -/
def md5K : List Nat :=
  [3614090360, 3905402710, 606105819, 3250441966, 4118548399, 1200080426,
   2821735955, 4249261313, 1770035416, 2336552879, 4294925233, 2304563134,
   1804603682, 4254626195, 2792965006, 1236535329, 4129170786, 3225465664,
   643717713, 3921069994, 3593408605, 38016083, 3634488961, 3889429448,
   568446438, 3275163606, 4107603335, 1163531501, 2850285829, 4243563512,
   1735328473, 2368359562, 4294588738, 2272392833, 1839030562, 4259657740,
   2763975236, 1272893353, 4139469664, 3200236656, 681279174, 3936430074,
   3572445317, 76029189, 3654602809, 3873151461, 530742520, 3299628645,
   4096336452, 1126891415, 2878612391, 4237533241, 1700485571, 2399980690,
   4293915773, 2240044497, 1873313359, 4264355552, 2734768916, 1309151649,
   4149444226, 3174756917, 718787259, 3951481745]

/-- The MD5 per-round left-rotation amounts. -/
def md5S : List Nat :=
  [7, 12, 17, 22, 7, 12, 17, 22, 7, 12, 17, 22, 7, 12, 17, 22,
   5, 9, 14, 20, 5, 9, 14, 20, 5, 9, 14, 20, 5, 9, 14, 20,
   4, 11, 16, 23, 4, 11, 16, 23, 4, 11, 16, 23, 4, 11, 16, 23,
   6, 10, 15, 21, 6, 10, 15, 21, 6, 10, 15, 21, 6, 10, 15, 21]

/-- The MD5 round function for operation `i`. -/
def md5F (i b c d : Nat) : Nat :=
  if i < 16 then (b &&& c) ||| (bnot32 b &&& d)
  else if i < 32 then (d &&& b) ||| (bnot32 d &&& c)
  else if i < 48 then b ^^^ c ^^^ d
  else c ^^^ (b ||| bnot32 d)

/-- The MD5 message-word index for operation `i`. -/
def md5g (i : Nat) : Nat :=
  if i < 16 then i
  else if i < 32 then (5 * i + 1) % 16
  else if i < 48 then (3 * i + 5) % 16
  else (7 * i) % 16

/-- The 16 little-endian 32-bit words of a 64-byte chunk. -/
def leWords16 (chunk : List Nat) : List Nat :=
  (List.range 16).map fun j =>
    chunk.getD (4 * j) 0 + 256 * chunk.getD (4 * j + 1) 0 +
      65536 * chunk.getD (4 * j + 2) 0 + 16777216 * chunk.getD (4 * j + 3) 0

/-- One MD5 operation on the register tuple `(a, b, c, d)`. -/
def md5Step (M : List Nat) (st : Nat × Nat × Nat × Nat) (i : Nat) : Nat × Nat × Nat × Nat :=
  let (a, b, c, d) := st
  let f := w32 (md5F i b c d + a + md5K.getD i 0 + M.getD (md5g i) 0)
  (d, w32 (b + rotl32 f (md5S.getD i 0)), b, c)

/-- Process one 64-byte chunk. -/
def md5Chunk (h : Nat × Nat × Nat × Nat) (chunk : List Nat) : Nat × Nat × Nat × Nat :=
  let M := leWords16 chunk
  let (a, b, c, d) := (List.range 64).foldl (md5Step M) h
  let (h0, h1, h2, h3) := h
  (w32 (h0 + a), w32 (h1 + b), w32 (h2 + c), w32 (h3 + d))

/-- Little-endian bytes of a 32-bit word. -/
def leBytes4 (x : Nat) : List Nat :=
  [x % 256, (x >>> 8) % 256, (x >>> 16) % 256, (x >>> 24) % 256]

/-- MD5 digest (16 bytes) of a byte-list message. -/
def md5Bytes (msg : List Nat) : List Nat :=
  let padded := md5pad msg
  let st := (chunks64 padded.length padded).foldl md5Chunk
    (1732584193, 4023233417, 2562383102, 271733878)
  leBytes4 st.1 ++ leBytes4 st.2.1 ++ leBytes4 st.2.2.1 ++ leBytes4 st.2.2.2

/-- Lowercase hex digit. -/
def hexDigit (n : Nat) : Char := "0123456789abcdef".toList.getD n '0'

/-- Two lowercase hex digits of a byte. -/
def byteHex (b : Nat) : List Char := [hexDigit (b / 16), hexDigit (b % 16)]

/-- Lowercase hex string of a byte list (`hexdigest()`). -/
def bytesToHex (bs : List Nat) : String :=
  String.mk (bs.foldr (fun b acc => byteHex b ++ acc) [])

/-- `hashlib.md5(msg).hexdigest()`. -/
def md5hex (msg : List Nat) : String := bytesToHex (md5Bytes msg)

/-- SHA-256 padding: `0x80`, zeros to 56 mod 64, 64-bit big-endian bit length. -/
def sha256pad (msg : List Nat) : List Nat :=
  let len := msg.length
  let zeros := (120 - (len + 1) % 64) % 64
  msg ++ [128] ++ List.replicate zeros 0 ++
    (List.range 8).map fun i => ((len * 8) >>> (8 * (7 - i))) % 256

/-- The 16 big-endian 32-bit words of a 64-byte chunk. -/
def beWords16 (chunk : List Nat) : List Nat :=
  (List.range 16).map fun j =>
    16777216 * chunk.getD (4 * j) 0 + 65536 * chunk.getD (4 * j + 1) 0 +
      256 * chunk.getD (4 * j + 2) 0 + chunk.getD (4 * j + 3) 0

/-- The SHA-256 round-constant table. -/
def shaK : List Nat :=
  [1116352408, 1899447441, 3049323471, 3921009573, 961987163, 1508970993,
   2453635748, 2870763221, 3624381080, 310598401, 607225278, 1426881987,
   1925078388, 2162078206, 2614888103, 3248222580, 3835390401, 4022224774,
   264347078, 604807628, 770255983, 1249150122, 1555081692, 1996064986,
   2554220882, 2821834349, 2952996808, 3210313671, 3336571891, 3584528711,
   113926993, 338241895, 666307205, 773529912, 1294757372, 1396182291,
   1695183700, 1986661051, 2177026350, 2456956037, 2730485921, 2820302411,
   3259730800, 3345764771, 3516065817, 3600352804, 4094571909, 275423344,
   430227734, 506948616, 659060556, 883997877, 958139571, 1322822218,
   1537002063, 1747873779, 1955562222, 2024104815, 2227730452, 2361852424,
   2428436474, 2756734187, 3204031479, 3329325298]

/-- Extend the 16 message words to 64 (first argument is the number of
words still to append, i.e. 48). -/
def shaExtend : Nat → List Nat → List Nat
  | 0, ws => ws
  | fuel + 1, ws =>
    let n := ws.length
    let x15 := ws.getD (n - 15) 0
    let x2 := ws.getD (n - 2) 0
    let s0 := rotr32 x15 7 ^^^ rotr32 x15 18 ^^^ (x15 >>> 3)
    let s1 := rotr32 x2 17 ^^^ rotr32 x2 19 ^^^ (x2 >>> 10)
    shaExtend fuel (ws ++ [w32 (ws.getD (n - 16) 0 + s0 + ws.getD (n - 7) 0 + s1)])

/-- The eight SHA-256 working registers. -/
structure Sha8 : Type where
  a : Nat
  b : Nat
  c : Nat
  d : Nat
  e : Nat
  f : Nat
  g : Nat
  h : Nat
deriving DecidableEq, Repr

/-- One SHA-256 compression round. -/
def shaStep (ws : List Nat) (st : Sha8) (i : Nat) : Sha8 :=
  let S1 := rotr32 st.e 6 ^^^ rotr32 st.e 11 ^^^ rotr32 st.e 25
  let ch := (st.e &&& st.f) ^^^ (bnot32 st.e &&& st.g)
  let t1 := w32 (st.h + S1 + ch + shaK.getD i 0 + ws.getD i 0)
  let S0 := rotr32 st.a 2 ^^^ rotr32 st.a 13 ^^^ rotr32 st.a 22
  let mj := (st.a &&& st.b) ^^^ (st.a &&& st.c) ^^^ (st.b &&& st.c)
  let t2 := w32 (S0 + mj)
  ⟨w32 (t1 + t2), st.a, st.b, st.c, w32 (st.d + t1), st.e, st.f, st.g⟩

/-- The SHA-256 initial hash value. -/
def shaInit : Sha8 :=
  ⟨1779033703, 3144134277, 1013904242, 2773480762,
   1359893119, 2600822924, 528734635, 1541459225⟩

/-- Process one 64-byte chunk. -/
def shaChunk (h : Sha8) (chunk : List Nat) : Sha8 :=
  let ws := shaExtend 48 (beWords16 chunk)
  let st := (List.range 64).foldl (shaStep ws) h
  ⟨w32 (h.a + st.a), w32 (h.b + st.b), w32 (h.c + st.c), w32 (h.d + st.d),
   w32 (h.e + st.e), w32 (h.f + st.f), w32 (h.g + st.g), w32 (h.h + st.h)⟩

/-- Big-endian bytes of a 32-bit word. -/
def beBytes4 (x : Nat) : List Nat :=
  [(x >>> 24) % 256, (x >>> 16) % 256, (x >>> 8) % 256, x % 256]

/-- SHA-256 digest (32 bytes) of a byte-list message. -/
def sha256Bytes (msg : List Nat) : List Nat :=
  let padded := sha256pad msg
  let st := (chunks64 padded.length padded).foldl shaChunk shaInit
  beBytes4 st.a ++ beBytes4 st.b ++ beBytes4 st.c ++ beBytes4 st.d ++
    beBytes4 st.e ++ beBytes4 st.f ++ beBytes4 st.g ++ beBytes4 st.h

/-- `hashlib.sha256(msg).hexdigest()`. -/
def sha256hex (msg : List Nat) : String := bytesToHex (sha256Bytes msg)

/-- The bytes of an ASCII string (UTF-8 agrees with code points here). -/
def strBytes (s : String) : List Nat := s.toList.map Char.toNat

end Scout

set_option maxRecDepth 100000

-- standard test vectors for the two hashes
example : Scout.md5hex [] = "d41d8cd98f00b204e9800998ecf8427e" := by decide
example : Scout.md5hex (Scout.strBytes "abc") = "900150983cd24fb0d6963f7d28e17f72" := by decide
example : Scout.sha256hex (Scout.strBytes "abc") =
    "ba7816bf8f01cfea414140de5dae2223b00361a396177a9cb410ff61f20015ad" := by decide

namespace Scout

/-! ### Dictionary files, versions, canonical serialization

`BrandETL._load_dictionary` parses the YAML file and hashes
`json.dumps(dictionary_data, sort_keys=True)` with SHA-256;
`BrandMatcher._get_dictionary_version` hashes the raw file bytes with MD5.
A dictionary file is modelled as its raw bytes together with the result of
`yaml.safe_load` on them (`none` when parsing raises); the pairing of
bytes with their parse is part of the embedding, since the YAML parser
itself is out of scope. The model restricts YAML documents to an optional
top-level `brands` mapping, the only key the code reads. -/

/-- A parsed YAML dictionary document. `brands = none` models a document
without a `brands` key (`data.get('brands', {})` then yields `{}`). -/
structure YamlDoc : Type where
  brands : Option Brands
deriving DecidableEq, Repr

/-- The state of the dictionary file on disk. -/
inductive FileState : Type
  | missing
  | present (bytes : List Nat) (parsed : Option YamlDoc)
deriving DecidableEq, Repr

/-- JSON string escaping (`json.dumps`); the examples in this file use
only characters that are emitted verbatim apart from `"` and `\`. -/
def jsonEscape (s : String) : String :=
  String.mk (s.toList.foldr
    (fun c acc =>
      if c = '"' then '\\' :: '"' :: acc
      else if c = '\\' then '\\' :: '\\' :: acc
      else c :: acc) [])

/-- Smallest decimal exponent `k ≤ 10` with `q.den ∣ 10^k`. -/
def decExp (q : ℚ) : Option Nat :=
  (List.range 11).find? fun k => decide (q.den ∣ 10 ^ k)

/-- A natural number as a decimal string padded with leading zeros to
`k` digits. -/
def padZeros (n k : Nat) : String :=
  let s := toString n
  String.mk (List.replicate (k - s.length) '0') ++ s

/-- `json.dumps` rendering of a Python float holding the rational `q`
(finite decimals only; Python's shortest-repr float formatting agrees with
this on every weight appearing in this development). -/
def qJson (q : ℚ) : String :=
  match decExp q with
  | some k =>
    let sign := if q.num < 0 then "-" else ""
    let n := q.num.natAbs * 10 ^ k / q.den
    if k = 0 then sign ++ toString n ++ ".0"
    else sign ++ toString (n / 10 ^ k) ++ "." ++ padZeros (n % 10 ^ k) k
  | none => "?"

/-- `json.dumps` of one brand's configuration object; its keys appear in
sorted order (`"regex" < "weight"`). -/
def cfgJson (cfg : BrandConfig) : String :=
  let fs :=
    (match cfg.regex with
     | some p => ["\"regex\": \"" ++ jsonEscape p.src ++ "\""]
     | none => []) ++
    (match cfg.weight with
     | some w => ["\"weight\": " ++ qJson w]
     | none => [])
  "\x7b" ++ String.intercalate ", " fs ++ "\x7d"

/-- `sort_keys=True`: the brand entries in ascending key order. -/
def sortEntries (l : Brands) : Brands :=
  List.insertionSort (fun a b => a.1 ≤ b.1) l

/-- `json.dumps` of the brand mapping with sorted keys. -/
def brandsJson (l : Brands) : String :=
  "\x7b" ++
    String.intercalate ", "
      ((sortEntries l).map fun p => "\"" ++ jsonEscape p.1 ++ "\": " ++ cfgJson p.2) ++
    "\x7d"

/-- `json.dumps(dictionary_data, sort_keys=True)` for a parsed document. -/
def docJson (d : YamlDoc) : String :=
  match d.brands with
  | none => "\x7b\x7d"
  | some l => "\x7b\"brands\": " ++ brandsJson l ++ "\x7d"

/-- The SHA-256 checksum the ETL driver computes over the canonical
serialization of the parsed document. -/
def canonChecksum (d : YamlDoc) : String := sha256hex (strBytes (docJson d))

/-- Errors raised while constructing a `BrandMatcher`. -/
inductive LoadError : Type
  | yamlError
deriving DecidableEq, Repr

/-- `BrandMatcher._load_dictionary`: a missing file (`FileNotFoundError`)
falls back to the hard-coded defaults; a file whose content does not parse
raises (`yaml` errors are not caught); otherwise the `brands` key with
`{}` as default. -/
def loadDictionary : FileState → Except LoadError Brands
  | .missing => .ok defaultBrands
  | .present _ none => .error .yamlError
  | .present _ (some d) => .ok (d.brands.getD [])

/-- `BrandMatcher._get_dictionary_version`: the first 8 hex characters of
the MD5 of the raw file bytes, or `"default"` when the file cannot be
read. -/
def getDictionaryVersion : FileState → String
  | .missing => "default"
  | .present bytes _ => (md5hex bytes).take 8

/-- `ON CONFLICT (version) DO UPDATE` upsert into
`scout.data_dictionary_versions` (version ↦ checksum). -/
def upsertVersion (l : List (String × String)) (v c : String) : List (String × String) :=
  if v ∈ l.map Prod.fst then
    l.map fun p => if p.1 = v then (v, c) else p
  else l ++ [(v, c)]

/-- `BrandETL._load_dictionary`: on success, upsert the dictionary under
`sha256(canonical_json)[:8]` and return that version; any exception is
caught and `"error"` returned. -/
def etlLoadDictionary (vers : List (String × String)) :
    FileState → List (String × String) × String
  | .missing => (vers, "error")
  | .present _ none => (vers, "error")
  | .present _ (some d) =>
    let checksum := canonChecksum d
    (upsertVersion vers (checksum.take 8) checksum, checksum.take 8)

/-! ### The medallion store and the Silver/Gold stages -/

/-- A row of `scout.bronze_raw_events`; `text` is the payload's `text`
field (`none` models a payload without a `text` key). -/
structure BronzeRow : Type where
  id : Nat
  text : Option String
deriving DecidableEq, Repr

/-- A row of `scout.silver_normalized_events`. -/
structure SilverRow : Type where
  id : Nat
  bronzeId : Nat
  text : Option String
deriving DecidableEq, Repr

/-- A row of `scout.gold_brand_predictions`. -/
structure GoldRow : Type where
  silverId : Nat
  text : String
  brand : String
  confidence : ℚ
  model_version : String
  dictionary_version : String
deriving DecidableEq, Repr

/-- A row of `scout.prediction_runs`. -/
structure RunRow : Type where
  bronze_rows : Nat
  silver_rows : Nat
  gold_rows : Nat
  status : String
deriving DecidableEq, Repr

/-- The persistent store the pipeline writes to. -/
structure Store : Type where
  bronze : List BronzeRow
  silver : List SilverRow
  gold : List GoldRow
  dictVersions : List (String × String)
  runs : List RunRow
deriving DecidableEq, Repr

/-- The Silver stage's selection: Bronze rows with no Silver row yet
(`id NOT IN (SELECT bronze_id …)`) whose payload has a `text` key
(`payload ? 'text'`). -/
def silverSelect (st : Store) : List BronzeRow :=
  st.bronze.filter fun b =>
    decide (b.id ∉ st.silver.map SilverRow.bronzeId) && b.text.isSome

/-- The Silver rows materialized for the selected Bronze rows; `nid` is
the next serial id handed out by the store. -/
def mkSilverRows : Nat → List BronzeRow → List SilverRow
  | _, [] => []
  | nid, b :: rest => ⟨nid, b.id, b.text⟩ :: mkSilverRows (nid + 1) rest

/-- `BrandETL.silver_layer`: insert one normalized row per selected Bronze
row and return the inserted count. -/
def silverLayer (st : Store) (idStart : Nat) : Store × Nat :=
  let rows := mkSilverRows idStart (silverSelect st)
  ({ st with silver := st.silver ++ rows }, rows.length)

/-- The Gold stage's selection: Silver rows with no Gold prediction yet
(`id NOT IN (SELECT silver_id …)`). -/
def goldSelect (st : Store) : List SilverRow :=
  st.silver.filter fun s =>
    decide (s.id ∉ st.gold.map GoldRow.silverId)

/-- Errors that abort the Gold stage. -/
inductive GoldError : Type
  | dictLoadFailed
  | pred (e : PredError)
deriving DecidableEq, Repr

/-- The Gold stage's per-record loop: skip falsy text (`if not text:
continue`), otherwise predict and insert; an exception from `predict`
aborts the loop, keeping the rows already inserted. Returns the inserted
rows, their count, and the exception if one was raised. -/
def goldLoop (brands : Brands) (mv dv : String) :
    List SilverRow → List GoldRow × Nat × Option PredError
  | [] => ([], 0, none)
  | s :: rest =>
    match s.text with
    | none => goldLoop brands mv dv rest
    | some t =>
      if t = "" then goldLoop brands mv dv rest
      else
        match predict brands t mv dv with
        | .error e => ([], 0, some e)
        | .ok p =>
          let res := goldLoop brands mv dv rest
          (⟨s.id, t, p.brand, p.confidence, p.model_version, p.dictionary_version⟩ :: res.1,
            res.2.1 + 1, res.2.2)

/-- The rows the Gold stage adds to `st` for dictionary file `file`,
with their count and the exception (if any): construct the matcher
(which may raise on malformed YAML) and run the loop over the selected
Silver rows, stamping `model_version = "1.0.0"` and the matcher's
`dictionary_version`. -/
def goldNew (st : Store) (file : FileState) : List GoldRow × Nat × Option GoldError :=
  match loadDictionary file with
  | .error _ => ([], 0, some .dictLoadFailed)
  | .ok brands =>
    let res := goldLoop brands "1.0.0" (getDictionaryVersion file) (goldSelect st)
    (res.1, res.2.1, res.2.2.map GoldError.pred)

/-- `BrandETL.gold_layer`: register the dictionary version, then generate
and insert predictions for the not-yet-predicted Silver rows. Each insert
is committed individually, so rows inserted before an exception persist. -/
def goldLayer (st : Store) (file : FileState) : Store × Nat × Option GoldError :=
  let vers := (etlLoadDictionary st.dictVersions file).1
  let res := goldNew st file
  ({ st with dictVersions := vers, gold := st.gold ++ res.1 }, res.2.1, res.2.2)

/-- `BrandETL.log_run_metrics`: append one row to `scout.prediction_runs`
(the three `scout.model_metrics` gauge rows are not modelled). -/
def logRunMetrics (st : Store) (b s g : Nat) (status : String) : Store :=
  { st with runs := st.runs ++ [⟨b, s, g, status⟩] }

/-- The `run_all` driver over the three stages (passed as state
transformers returning their row count): run Bronze, Silver, Gold in
order; on success log a `success` run with the three counts; on the first
exception log a `(0, 0, 0)` `failed` run and re-raise. -/
def runAll (bronze silver gold : Store → Except String (Store × Nat)) (st : Store) :
    Store × Except String (Nat × Nat × Nat) :=
  match bronze st with
  | .error e => (logRunMetrics st 0 0 0 "failed", .error e)
  | .ok (st1, b) =>
    match silver st1 with
    | .error e => (logRunMetrics st1 0 0 0 "failed", .error e)
    | .ok (st2, s) =>
      match gold st2 with
      | .error e => (logRunMetrics st2 0 0 0 "failed", .error e)
      | .ok (st3, g) => (logRunMetrics st3 b s g "success", .ok (b, s, g))

end Scout

-- sanity: the spec scenario "bought 2 coke cans" on the default dictionary
example :
    Scout.predict Scout.defaultBrands "bought 2 coke cans" "1.0.0" "default" =
      .ok ⟨"coke", 11/18, "1.0.0", "default"⟩ := by decide
-- sanity: empty text raises ZeroDivisionError on the default dictionary
example : Scout.predict Scout.defaultBrands "" "1.0.0" "default" = .error .zeroDiv := by decide

namespace Scout

/-! ### Helper lemmas -/

/-- The empty pattern matches at position 0 with a zero-length match. -/
theorem research_eps (s : List Char) : research RE.eps s = some (0, 0) := by
  have hm : fuelFor RE.eps s = 12 * s.length + 23 + 1 := by
    simp [fuelFor, reSize]; ring
  unfold research
  rw [List.range_succ_eq_map, List.findSome?_cons, hm]
  simp [mtch]

/-- An entry without a `regex` key searches with the empty pattern, which
matches every text with a zero-length match. -/
theorem entrySearch_no_regex (cfg : BrandConfig) (tl : List Char) (h : cfg.regex = none) :
    entrySearch cfg tl = .ok (some 0) := by
  unfold entrySearch
  rw [h]
  simp [research_eps]

/-- When no entry's search matches, the fold leaves the accumulator
untouched. -/
theorem scoreFold_no_match (brands : Brands) (tl : List Char) (acc : Option String × ℚ)
    (h : ∀ p ∈ brands, entrySearch p.2 tl = .ok none) :
    scoreFold brands tl acc = .ok acc := by
  induction brands generalizing acc with
  | nil => rfl
  | cons p rest ih =>
    obtain ⟨name, cfg⟩ := p
    have h1 : entrySearch cfg tl = .ok none := h _ (List.mem_cons_self _ _)
    have hconf : entryConf cfg tl = .ok none := by unfold entryConf; rw [h1]
    obtain ⟨best, bc⟩ := acc
    unfold scoreFold
    rw [hconf]
    exact ih (best, bc) fun q hq => h q (List.mem_cons_of_mem _ hq)

/-! ### C4 -/

/-- C4: the claim that `predict` never divides by zero on empty text is
violated by the code: on the default dictionary the catch-all `.*` entry
matches the empty string and `len(match.group()) / len(text_lower)` is
`0 / 0`, so `predict("")` raises `ZeroDivisionError`. -/
theorem predict_empty_text_zero_division (mv dv : String) :
    predict defaultBrands "" mv dv = .error .zeroDiv := rfl

/-! ### C5 -/

/-- A dictionary whose first entry's pattern `"("` is a malformed regular
expression (`re.error`), followed by a well-formed entry that matches the
text `"pepsi"`. -/
def badPatBrands : Brands :=
  [ ("bad", ⟨some (.malformed "("), some 1⟩),
    ("pepsi", ⟨some (.ok "\\bpepsi\\b" (bounded (rstr "pepsi"))), some 1⟩) ]

/-- C5: the claim that a malformed pattern is skipped is violated by the
code: `re.search` raises `re.error` and `predict` has no handler, so the
whole call aborts even though the later `pepsi` entry would match. -/
theorem predict_malformed_pattern_aborts (mv dv : String) :
    predict badPatBrands "pepsi" mv dv = .error .regexError := rfl

/-! ### C6 -/

/-- A dictionary file that exists but whose content is malformed YAML
(`yaml.safe_load` raises on `"brands: [unclosed"`). -/
def badFile : FileState := .present (strBytes "brands: [unclosed") none

/-- C6 counterexample: on a present-but-malformed dictionary file the
Matcher's `_load_dictionary` does not fall back to the defaults — only
`FileNotFoundError` is caught, so the YAML error propagates and the
constructor fails. -/
theorem malformed_dictionary_raises_cx :
    loadDictionary badFile = .error .yamlError := rfl

/-- C6 (amended): only a missing file falls back to the hard-coded default
dictionary, which is non-empty and ends with the catch-all `generic` entry
with match-anything pattern `.*` and weight 0.1. -/
theorem missing_dictionary_falls_back :
    loadDictionary .missing = .ok defaultBrands ∧
    defaultBrands.length = 9 ∧
    defaultBrands.getLast? = some ("generic", ⟨some (.ok ".*" dotStar), some (1/10)⟩) := by
  refine ⟨rfl, rfl, ?_⟩
  decide

/-! ### C10 -/

/-- C10: an entry whose configuration lacks the `regex` key is not skipped:
`.get('regex', '')` substitutes the empty pattern, which matches every
text with a zero-length match, so on non-empty text the entry is scored
with confidence `weight * 0.5` (weight defaulting to 1.0). -/
theorem missing_pattern_key_scored (cfg : BrandConfig) (tl : List Char)
    (hre : cfg.regex = none) (htl : tl ≠ []) :
    entrySearch cfg tl = .ok (some 0) ∧
    entryConf cfg tl = .ok (some (cfg.weight.getD 1 * (1/2 : ℚ))) := by
  have hs := entrySearch_no_regex cfg tl hre
  refine ⟨hs, ?_⟩
  unfold entryConf
  rw [hs]
  have hlen : ¬tl.length = 0 := by simpa [List.length_eq_zero] using htl
  simp only [hlen, if_false]
  norm_num

/-- Witness for C10 at the concrete entry `{}` (no `regex`, no `weight`)
and the one-character text `"a"`. -/
theorem missing_pattern_key_scored_witness :
    entrySearch ⟨none, none⟩ ['a'] = .ok (some 0) ∧
    entryConf ⟨none, none⟩ ['a'] =
      .ok (some ((BrandConfig.mk none none).weight.getD 1 * (1/2 : ℚ))) :=
  missing_pattern_key_scored ⟨none, none⟩ ['a'] rfl (by decide)

/-! ### C7 -/

/-- C7: when no dictionary entry matches, `predict` returns the fixed
fallback `("generic", 0.1)`, whatever the dictionary (in particular
whatever weight a dictionary-defined `generic` entry carries). -/
theorem predict_no_match_floor (brands : Brands) (text mv dv : String)
    (h : ∀ p ∈ brands, entrySearch p.2 (lowerList text) = .ok none) :
    predict brands text mv dv = .ok ⟨"generic", 1/10, mv, dv⟩ := by
  have hs := scoreFold_no_match brands (lowerList text) (none, 0) h
  have hmin : (1 : ℚ) / 10 ⊓ 1 = 1 / 10 := min_eq_left (by norm_num)
  simp only [predict, hs, hmin]

/-- A dictionary whose own `generic` entry has weight 0.9 and a pattern
that does not match the text `"abc"`. -/
def genericNinety : Brands := [("generic", ⟨some (.ok "zzz" (rstr "zzz")), some (9/10)⟩)]

/-- Witness for C7: on `genericNinety` and text `"abc"` nothing matches,
and the returned confidence is the constant 0.1, not the dictionary's 0.9
generic weight. -/
theorem predict_no_match_floor_witness :
    predict genericNinety "abc" "1.0.0" "default" =
      .ok ⟨"generic", 1/10, "1.0.0", "default"⟩ :=
  predict_no_match_floor _ _ _ _ (by decide)

end Scout

namespace Scout

/-! ### C2 -/

/-- The parsed content shared by the two concrete dictionary files below:
one brand `cola` with pattern `cola` and weight 1.0. -/
def colaDoc : YamlDoc := ⟨some [("cola", ⟨some (.ok "cola" (rstr "cola")), some 1⟩)]⟩

/-- Bytes of a dictionary file holding `colaDoc`. -/
def fileBytes1 : List Nat :=
  strBytes "brands:\n  cola:\n    regex: cola\n    weight: 1.0\n"

/-- Bytes of a second file with the same YAML content: it appends only the
comment line `# note`, which `yaml.safe_load` ignores, so both files parse
to `colaDoc`. -/
def fileBytes2 : List Nat := fileBytes1 ++ strBytes "# note\n"

/-- First concrete dictionary file. -/
def colaFile1 : FileState := .present fileBytes1 (some colaDoc)

/-- Second concrete dictionary file: identical content, different bytes. -/
def colaFile2 : FileState := .present fileBytes2 (some colaDoc)

/-- C2 counterexample: two dictionary files with identical content
(both parse to `colaDoc`, and the Matcher loads the same entries from
both) but different byte layout get different `dictionary_version`s from
`BrandMatcher._get_dictionary_version`, because it hashes the raw file
bytes with MD5 instead of a canonical serialization of the content. -/
theorem matcher_version_byte_layout_cx :
    loadDictionary colaFile1 = loadDictionary colaFile2 ∧
    getDictionaryVersion colaFile1 ≠ getDictionaryVersion colaFile2 := by
  exact ⟨rfl, by decide⟩

/-- Entries sorted by key: permuted inputs with duplicate-free keys sort
to the same list. -/
theorem sortEntries_perm_eq (l1 l2 : Brands) (hp : l1.Perm l2)
    (hnd : (l1.map Prod.fst).Nodup) : sortEntries l1 = sortEntries l2 := by
  haveI htot : IsTotal (String × BrandConfig) (fun a b => a.1 ≤ b.1) :=
    ⟨fun a b => le_total a.1 b.1⟩
  haveI htr : IsTrans (String × BrandConfig) (fun a b => a.1 ≤ b.1) :=
    ⟨fun _ _ _ hab hbc => le_trans hab hbc⟩
  haveI hanti : IsAntisymm (String × BrandConfig) (fun a b => a.1 < b.1) :=
    ⟨fun _ _ h1 h2 => absurd h2 (lt_asymm h1)⟩
  have p1 := List.perm_insertionSort (fun a b : String × BrandConfig => a.1 ≤ b.1) l1
  have p2 := List.perm_insertionSort (fun a b : String × BrandConfig => a.1 ≤ b.1) l2
  have pp : (sortEntries l1).Perm (sortEntries l2) := p1.trans (hp.trans p2.symm)
  have hnd1 : ((sortEntries l1).map Prod.fst).Nodup :=
    hnd.perm (List.Perm.map Prod.fst p1).symm
  have hnd2 : ((sortEntries l2).map Prod.fst).Nodup := hnd1.perm (List.Perm.map Prod.fst pp)
  have strict : ∀ l : Brands, ((l.map Prod.fst).Nodup) →
      List.Sorted (fun a b : String × BrandConfig => a.1 ≤ b.1) l →
      List.Sorted (fun a b : String × BrandConfig => a.1 < b.1) l := by
    intro l hndl hle
    have hne : List.Pairwise (fun a b : String × BrandConfig => a.1 ≠ b.1) l :=
      List.pairwise_map.mp hndl
    exact (hle.and hne).imp fun h => lt_of_le_of_ne h.1 h.2
  exact List.eq_of_perm_of_sorted pp
    (strict _ hnd1 (List.sorted_insertionSort _ l1))
    (strict _ hnd2 (List.sorted_insertionSort _ l2))

/-- C2 (amended): the driver's version in `BrandETL._load_dictionary`
really is content-determined — it hashes the keys-sorted canonical JSON of
the parsed document, so any two files whose parses hold the same brand
entries (in any order, keys duplicate-free) register the same version,
whatever their raw bytes; the Matcher's `dictionary_version` (see the
counterexample) is instead a hash of the raw bytes. -/
theorem etl_version_content_determined (vers1 vers2 : List (String × String))
    (b1 b2 : List Nat) (l1 l2 : Brands) (hp : l1.Perm l2)
    (hnd : (l1.map Prod.fst).Nodup) :
    (etlLoadDictionary vers1 (.present b1 (some ⟨some l1⟩))).2 =
      (etlLoadDictionary vers2 (.present b2 (some ⟨some l2⟩))).2 := by
  have h := sortEntries_perm_eq l1 l2 hp hnd
  simp [etlLoadDictionary, canonChecksum, docJson, brandsJson, h]

/-- A two-entry dictionary. -/
def permA : Brands :=
  [("alpha", ⟨some (.ok "x" (rstr "x")), some 1⟩), ("beta", ⟨none, some (1/2)⟩)]

/-- The same entries in the opposite order. -/
def permB : Brands :=
  [("beta", ⟨none, some (1/2)⟩), ("alpha", ⟨some (.ok "x" (rstr "x")), some 1⟩)]

/-- Witness for the amended C2: two byte-wise different files whose parses
hold the same entries in different order register the same driver
version. -/
theorem etl_version_content_determined_witness :
    (etlLoadDictionary [] (.present (strBytes "f1") (some ⟨some permA⟩))).2 =
      (etlLoadDictionary [] (.present (strBytes "f2") (some ⟨some permB⟩))).2 :=
  etl_version_content_determined [] [] _ _ permA permB (by decide) (by decide)

/-! ### C3 -/

/-- `predict` stamps every successful result with the matcher's
`model_version` and `dictionary_version` arguments. -/
theorem predict_versions (brands : Brands) (t mv dv : String) (p : Prediction)
    (h : predict brands t mv dv = .ok p) :
    p.model_version = mv ∧ p.dictionary_version = dv := by
  simp only [predict] at h
  rcases hsf : scoreFold brands (lowerList t) (none, 0) with e | ⟨bm, bc⟩ <;>
    rw [hsf] at h <;> dsimp only at h
  · cases h
  · cases h; exact ⟨rfl, rfl⟩

/-- Every row produced by the Gold loop carries the `dictionary_version`
the loop was given. -/
theorem goldLoop_dv (brands : Brands) (mv dv : String) (sel : List SilverRow) :
    ∀ r ∈ (goldLoop brands mv dv sel).1, r.dictionary_version = dv := by
  induction sel with
  | nil => intro r hr; cases hr
  | cons s rest ih =>
    intro r hr
    unfold goldLoop at hr
    rcases hst : s.text with _ | t <;> rw [hst] at hr <;> dsimp only at hr
    · exact ih r hr
    · by_cases ht : t = ""
      · rw [if_pos ht] at hr; exact ih r hr
      · rw [if_neg ht] at hr
        rcases hp : predict brands t mv dv with e | p <;> rw [hp] at hr <;> dsimp only at hr
        · cases hr
        · rcases List.mem_cons.mp hr with hr | hr
          · rw [hr]; exact (predict_versions brands t mv dv p hp).2
          · exact ih r hr

/-- C3 (amended): each prediction the Gold stage inserts is stamped with
the Matcher's `dictionary_version` — the MD5 of the raw dictionary file
bytes (or `"default"`) — not with the SHA-256-based version string under
which `BrandETL._load_dictionary` registers the dictionary content; the
two version schemes generally disagree (see the counterexample). -/
theorem stamped_version_is_matcher_version (st : Store) (file : FileState) :
    ((goldLayer st file).1.gold.drop st.gold.length).all
      (fun r => r.dictionary_version == getDictionaryVersion file) = true := by
  unfold goldLayer
  rw [List.drop_left]
  rw [List.all_eq_true]
  intro r hr
  unfold goldNew at hr
  rcases hld : loadDictionary file with e | brands <;> rw [hld] at hr
  · cases hr
  · have := goldLoop_dv brands "1.0.0" (getDictionaryVersion file) (goldSelect st) r hr
    simp [this]

/-- A store holding exactly one Silver row (text `"cola"`) and no Gold
predictions. -/
def silverOne : Store := ⟨[], [⟨1, 1, some "cola"⟩], [], [], []⟩

/-- C3 counterexample: a concrete Gold run over `silverOne` with the
dictionary file `colaFile1` inserts one prediction and registers one
dictionary version, but the stamped `dictionary_version`
(`md5(file bytes)[:8]`) differs from the version key the driver stored
(`sha256(canonical json)[:8]`), so the prediction cannot be traced to the
registered dictionary by its version string. -/
theorem stamped_version_mismatch_cx :
    (goldLayer silverOne colaFile1).1.gold.map GoldRow.dictionary_version ≠
      (goldLayer silverOne colaFile1).1.dictVersions.map Prod.fst ∧
    ((goldLayer silverOne colaFile1).1.gold.map GoldRow.dictionary_version).length = 1 ∧
    ((goldLayer silverOne colaFile1).1.dictVersions.map Prod.fst).length = 1 := by
  refine ⟨by decide, by decide, by decide⟩

end Scout

-- sanity: the embedded canonical serialization and hashes agree with
-- Python's json.dumps/hashlib on the concrete C2/C3 inputs
example : Scout.docJson Scout.colaDoc =
    "\x7b\"brands\": \x7b\"cola\": \x7b\"regex\": \"cola\", \"weight\": 1.0\x7d\x7d\x7d" := by decide
example : Scout.canonChecksum Scout.colaDoc =
    "61db8781f9b6283200b11249d8597f60efd67a082cabfcafc4da688c899613cd" := by decide
example : Scout.md5hex Scout.fileBytes1 = "216b2763990b80e68c1fef3342aa9791" := by decide
example : Scout.md5hex Scout.fileBytes2 = "bb3ce08daa193b6f464e244cc90be1e6" := by decide

namespace Scout

/-! ### C9 -/

/-- C9: whichever stage raises first, `run_all` appends exactly one
run-metrics row, with counts `(0, 0, 0)` and status `"failed"`, and
returns the original exception. The stage hypotheses say only that a
successfully completed stage does not itself write to the run-metrics
table, which holds of the three stage implementations (only
`log_run_metrics` writes to `scout.prediction_runs`). -/
theorem run_all_logs_failed_run
    (bronze silver gold : Store → Except String (Store × Nat)) (st : Store) (e : String)
    (hb : ∀ s st' n, bronze s = .ok (st', n) → st'.runs = s.runs)
    (hs : ∀ s st' n, silver s = .ok (st', n) → st'.runs = s.runs)
    (hfail : (runAll bronze silver gold st).2 = .error e) :
    (runAll bronze silver gold st).1.runs = st.runs ++ [⟨0, 0, 0, "failed"⟩] := by
  unfold runAll at hfail ⊢
  rcases hbr : bronze st with eb | ⟨st1, b⟩ <;> rw [hbr] at hfail <;> dsimp only at hfail ⊢
  · rfl
  · have h1 : st1.runs = st.runs := hb st st1 b hbr
    rcases hsr : silver st1 with es | ⟨st2, s⟩ <;> rw [hsr] at hfail <;> dsimp only at hfail ⊢
    · simp [logRunMetrics, h1]
    · have h2 : st2.runs = st1.runs := hs st1 st2 s hsr
      rcases hgr : gold st2 with eg | ⟨st3, g⟩ <;> rw [hgr] at hfail <;> dsimp only at hfail ⊢
      · simp [logRunMetrics, h2, h1]
      · exact Except.noConfusion hfail

/-- Witness for C9: Bronze succeeds (5 rows, store unchanged), Silver
raises, and the failed run row is the only row logged. -/
theorem run_all_logs_failed_run_witness :
    (runAll (fun s => .ok (s, 5)) (fun _ => .error "boom") (fun s => .ok (s, 0))
        ⟨[], [], [], [], []⟩).1.runs = [] ++ [⟨0, 0, 0, "failed"⟩] :=
  run_all_logs_failed_run _ _ _ ⟨[], [], [], [], []⟩ "boom"
    (fun s st' n h => by cases h; rfl)
    (fun s st' n h => by cases h)
    (by decide)

end Scout

namespace Scout

/-! ### C8 -/

/-- Whether one loop iteration evaluates without raising. -/
def entryOk (cfg : BrandConfig) (tl : List Char) : Bool :=
  match entryConf cfg tl with
  | .ok _ => true
  | .error _ => false

/-- The confidence one loop iteration computes (0 when the entry does not
match; meaningful under `entryOk`). -/
def entryConfVal (cfg : BrandConfig) (tl : List Char) : ℚ :=
  match entryConf cfg tl with
  | .ok (some q) => q
  | .ok none => 0
  | .error _ => 0

/-- One step of `scoreFold` on a cons cell. -/
theorem scoreFold_cons (name : String) (cfg : BrandConfig) (rest : Brands) (tl : List Char)
    (best : Option String) (bc : ℚ) :
    scoreFold ((name, cfg) :: rest) tl (best, bc) =
      match entryConf cfg tl with
      | .error e => .error e
      | .ok none => scoreFold rest tl (best, bc)
      | .ok (some conf) =>
        if bc < conf then scoreFold rest tl (some name, conf)
        else scoreFold rest tl (best, bc) := rfl

/-- `scoreFold` distributes over list append. -/
theorem scoreFold_append (l1 l2 : Brands) (tl : List Char) (acc : Option String × ℚ) :
    scoreFold (l1 ++ l2) tl acc =
      match scoreFold l1 tl acc with
      | .error e => .error e
      | .ok acc' => scoreFold l2 tl acc' := by
  induction l1 generalizing acc with
  | nil => rfl
  | cons p rest ih =>
    obtain ⟨name, cfg⟩ := p
    obtain ⟨best, bc⟩ := acc
    show scoreFold ((name, cfg) :: (rest ++ l2)) tl (best, bc) = _
    rw [scoreFold_cons, scoreFold_cons]
    rcases hoc : entryConf cfg tl with e | (_ | q) <;> dsimp only
    · exact ih (best, bc)
    · by_cases hq : bc < q
      · rw [if_pos hq, if_pos hq]; exact ih (some name, q)
      · rw [if_neg hq, if_neg hq]; exact ih (best, bc)

/-- Entries that evaluate without error and never exceed `c` leave an
accumulator already at confidence `c` unchanged (ties do not displace the
current best: the update needs a strictly greater confidence). -/
theorem scoreFold_le_keeps (post : Brands) (tl : List Char) (nm : String) (c : ℚ)
    (hok : ∀ p ∈ post, entryOk p.2 tl = true)
    (hle : ∀ p ∈ post, entryConfVal p.2 tl ≤ c) :
    scoreFold post tl (some nm, c) = .ok (some nm, c) := by
  induction post with
  | nil => rfl
  | cons p rest ih =>
    obtain ⟨name, cfg⟩ := p
    have hok1 : entryOk cfg tl = true := hok (name, cfg) (List.mem_cons_self _ _)
    have hle1 : entryConfVal cfg tl ≤ c := hle (name, cfg) (List.mem_cons_self _ _)
    have hokr : ∀ p ∈ rest, entryOk p.2 tl = true :=
      fun p hp => hok p (List.mem_cons_of_mem _ hp)
    have hler : ∀ p ∈ rest, entryConfVal p.2 tl ≤ c :=
      fun p hp => hle p (List.mem_cons_of_mem _ hp)
    rw [scoreFold_cons]
    rcases hoc : entryConf cfg tl with e | (_ | q) <;> dsimp only
    · unfold entryOk at hok1; rw [hoc] at hok1; cases hok1
    · exact ih hokr hler
    · have hq : entryConfVal cfg tl = q := by unfold entryConfVal; rw [hoc]
      rw [hq] at hle1
      rw [if_neg (not_lt.mpr hle1)]
      exact ih hokr hler

/-- Entries that evaluate without error and stay strictly below `c` keep
the accumulator's confidence strictly below `c`. -/
theorem scoreFold_lt_invariant (pre : Brands) (tl : List Char) (c : ℚ)
    (acc : Option String × ℚ) (hacc : acc.2 < c)
    (hok : ∀ p ∈ pre, entryOk p.2 tl = true)
    (hlt : ∀ p ∈ pre, entryConfVal p.2 tl < c) :
    ∃ acc', scoreFold pre tl acc = .ok acc' ∧ acc'.2 < c := by
  induction pre generalizing acc with
  | nil => exact ⟨acc, rfl, hacc⟩
  | cons p rest ih =>
    obtain ⟨name, cfg⟩ := p
    obtain ⟨best, bc⟩ := acc
    have hok1 : entryOk cfg tl = true := hok (name, cfg) (List.mem_cons_self _ _)
    have hlt1 : entryConfVal cfg tl < c := hlt (name, cfg) (List.mem_cons_self _ _)
    have hokr : ∀ p ∈ rest, entryOk p.2 tl = true :=
      fun p hp => hok p (List.mem_cons_of_mem _ hp)
    have hltr : ∀ p ∈ rest, entryConfVal p.2 tl < c :=
      fun p hp => hlt p (List.mem_cons_of_mem _ hp)
    rw [scoreFold_cons]
    rcases hoc : entryConf cfg tl with e | (_ | q) <;> dsimp only
    · unfold entryOk at hok1; rw [hoc] at hok1; cases hok1
    · exact ih (best, bc) hacc hokr hltr
    · have hq : entryConfVal cfg tl = q := by unfold entryConfVal; rw [hoc]
      rw [hq] at hlt1
      by_cases hgt : bc < q
      · rw [if_pos hgt]; exact ih (some name, q) hlt1 hokr hltr
      · rw [if_neg hgt]; exact ih (best, bc) hacc hokr hltr

/-- C8: `predict` selects the entry with the strictly highest confidence,
evaluating every entry; on ties the first-seen entry wins. Stated over an
arbitrary decomposition `pre ++ (nm, cfg) :: post` of the dictionary: if
every earlier entry's confidence is strictly below `c`, the entry `(nm,
cfg)` scores exactly `c > 0`, and no later entry exceeds `c` (ties
allowed), then `predict` returns `nm` with confidence `min c 1`. -/
theorem predict_selects_first_strict_max
    (pre post : Brands) (nm : String) (cfg : BrandConfig) (text mv dv : String) (c : ℚ)
    (hok_pre : ∀ p ∈ pre, entryOk p.2 (lowerList text) = true)
    (hlt_pre : ∀ p ∈ pre, entryConfVal p.2 (lowerList text) < c)
    (hc : entryConf cfg (lowerList text) = .ok (some c))
    (hcpos : 0 < c)
    (hname : nm ≠ "")
    (hok_post : ∀ p ∈ post, entryOk p.2 (lowerList text) = true)
    (hle_post : ∀ p ∈ post, entryConfVal p.2 (lowerList text) ≤ c) :
    predict (pre ++ (nm, cfg) :: post) text mv dv = .ok ⟨nm, min c 1, mv, dv⟩ := by
  obtain ⟨acc', hpre, hlt'⟩ :=
    scoreFold_lt_invariant pre (lowerList text) c (none, 0) hcpos hok_pre hlt_pre
  obtain ⟨b0, q0⟩ := acc'
  have hlt2 : q0 < c := hlt'
  have hmid : scoreFold ((nm, cfg) :: post) (lowerList text) (b0, q0) = .ok (some nm, c) := by
    rw [scoreFold_cons, hc]
    dsimp only
    rw [if_pos hlt2]
    exact scoreFold_le_keeps post (lowerList text) nm c hok_post hle_post
  simp only [predict, scoreFold_append, hpre, hmid, if_neg hname]

/-- Witness for C8 on a concrete dictionary: the second entry scores 3/4,
strictly above the first entry's 1/2; the third entry ties at 3/4 but the
first-seen winner is kept; the fourth entry does not match. -/
theorem predict_selects_first_strict_max_witness :
    predict
      ([("low", ⟨none, some 1⟩)] ++ ("winner", ⟨none, some (3/2)⟩) ::
        [("tie", ⟨none, some (3/2)⟩), ("nomatch", ⟨some (.ok "zzz" (rstr "zzz")), some 1⟩)])
      "a" "1.0.0" "default" = .ok ⟨"winner", min (3/4 : ℚ) 1, "1.0.0", "default"⟩ :=
  predict_selects_first_strict_max _ _ _ _ _ _ _ (3/4)
    (by decide) (by decide) (by decide) (by norm_num) (by decide) (by decide) (by decide)

end Scout

namespace Scout

/-! ### C1 helpers -/

/-- The materialized Silver rows reference exactly the selected Bronze
ids. -/
theorem mkSilverRows_map_bronzeId (nid : Nat) (sel : List BronzeRow) :
    (mkSilverRows nid sel).map SilverRow.bronzeId = sel.map BronzeRow.id := by
  induction sel generalizing nid with
  | nil => rfl
  | cons b rest ih => simp [mkSilverRows, ih]

/-- After a Silver run, every Bronze row with a `text` key is referenced
by some Silver row, so the Silver selection is empty. -/
theorem silverSelect_after (st : Store) (i1 : Nat) :
    silverSelect (silverLayer st i1).1 = [] := by
  unfold silverSelect
  rw [List.filter_eq_nil_iff]
  intro b hb
  simp only [silverLayer] at hb
  rw [Bool.and_eq_true, decide_eq_true_iff]
  rintro ⟨hnotin, hsome⟩
  apply hnotin
  show b.id ∈ ((silverLayer st i1).1.silver).map SilverRow.bronzeId
  simp only [silverLayer, List.map_append, List.mem_append, mkSilverRows_map_bronzeId]
  by_cases hin : b.id ∈ st.silver.map SilverRow.bronzeId
  · exact Or.inl hin
  · refine Or.inr ?_
    have hbsel : b ∈ silverSelect st :=
      List.mem_filter.mpr ⟨hb, by rw [Bool.and_eq_true, decide_eq_true_iff]; exact ⟨hin, hsome⟩⟩
    exact List.mem_map.mpr ⟨b, hbsel, rfl⟩

/-- Re-upserting the same version row is a no-op. -/
theorem upsertVersion_idem (l : List (String × String)) (v c : String) :
    upsertVersion (upsertVersion l v c) v c = upsertVersion l v c := by
  unfold upsertVersion
  by_cases hc : v ∈ l.map Prod.fst
  · rw [if_pos hc]
    have hc2 : v ∈ (l.map fun p => if p.1 = v then (v, c) else p).map Prod.fst := by
      rcases List.mem_map.mp hc with ⟨p, hp, hpv⟩
      refine List.mem_map.mpr ⟨(v, c), List.mem_map.mpr ⟨p, hp, ?_⟩, rfl⟩
      rw [if_pos hpv]
    rw [if_pos hc2, List.map_map]
    refine List.map_congr_left fun p hp => ?_
    by_cases hpv : p.1 = v
    · simp [Function.comp, hpv]
    · simp [Function.comp, hpv]
  · rw [if_neg hc]
    have hc2 : v ∈ (l ++ [(v, c)]).map Prod.fst := by
      rw [List.map_append, List.mem_append]
      exact Or.inr (List.mem_map.mpr ⟨(v, c), List.mem_singleton.mpr rfl, rfl⟩)
    rw [if_pos hc2, List.map_append]
    have hl : (l.map fun p => if p.1 = v then (v, c) else p) = l := by
      have hfix : ∀ p ∈ l, (if p.1 = v then (v, c) else p) = p := by
        intro p hp
        rw [if_neg]
        intro hpv
        exact hc (List.mem_map.mpr ⟨p, hp, hpv⟩)
      exact (List.map_congr_left hfix).trans (List.map_id l)
    rw [hl]
    simp

/-- Re-running the driver's dictionary registration leaves the versions
table unchanged. -/
theorem etlLoadDictionary_idem (vers : List (String × String)) (file : FileState) :
    (etlLoadDictionary (etlLoadDictionary vers file).1 file).1 =
      (etlLoadDictionary vers file).1 := by
  cases file with
  | missing => rfl
  | present bytes parsed =>
    cases parsed with
    | none => rfl
    | some d =>
      simp only [etlLoadDictionary]
      exact upsertVersion_idem vers ((canonChecksum d).take 8) (canonChecksum d)

/-- One step of the Gold loop on a cons cell. -/
theorem goldLoop_cons (brands : Brands) (mv dv : String) (s : SilverRow)
    (rest : List SilverRow) :
    goldLoop brands mv dv (s :: rest) =
      match s.text with
      | none => goldLoop brands mv dv rest
      | some t =>
        if t = "" then goldLoop brands mv dv rest
        else
          match predict brands t mv dv with
          | .error e => ([], 0, some e)
          | .ok p =>
            let res := goldLoop brands mv dv rest
            (⟨s.id, t, p.brand, p.confidence, p.model_version, p.dictionary_version⟩ :: res.1,
              res.2.1 + 1, res.2.2) := rfl

/-- The Gold loop over rows that are all skipped (`if not text: continue`)
inserts nothing and succeeds. -/
theorem goldLoop_all_falsy (brands : Brands) (mv dv : String) (sel : List SilverRow)
    (h : ∀ s ∈ sel, s.text.getD "" = "") :
    goldLoop brands mv dv sel = ([], 0, none) := by
  induction sel with
  | nil => rfl
  | cons s rest ih =>
    have h1 : s.text.getD "" = "" := h s (List.mem_cons_self _ _)
    have hr : ∀ s' ∈ rest, s'.text.getD "" = "" :=
      fun s' hs' => h s' (List.mem_cons_of_mem _ hs')
    rw [goldLoop_cons]
    rcases hst : s.text with _ | t <;> rw [hst] at h1 <;> dsimp only
    · exact ih hr
    · rw [Option.getD_some] at h1
      rw [if_pos h1]
      exact ih hr

/-- When the Gold loop completes without an exception, every selected row
with truthy text ends up referenced by an inserted prediction. -/
theorem goldLoop_covers (brands : Brands) (mv dv : String) (sel : List SilverRow)
    (herr : (goldLoop brands mv dv sel).2.2 = none) :
    ∀ s ∈ sel, s.text.getD "" ≠ "" →
      s.id ∈ (goldLoop brands mv dv sel).1.map GoldRow.silverId := by
  induction sel with
  | nil => intro s hs; cases hs
  | cons s0 rest ih =>
    intro s hs htr
    rw [goldLoop_cons] at herr ⊢
    revert herr
    rcases hst : s0.text with _ | t <;> dsimp only <;> intro herr
    · rcases List.mem_cons.mp hs with rfl | hs'
      · rw [hst] at htr; simp at htr
      · exact ih herr s hs' htr
    · by_cases ht : t = ""
      · rw [if_pos ht] at herr ⊢
        rcases List.mem_cons.mp hs with rfl | hs'
        · rw [hst] at htr; simp [ht] at htr
        · exact ih herr s hs' htr
      · rw [if_neg ht] at herr ⊢
        revert herr
        rcases hp : predict brands t mv dv with e | p <;> dsimp only <;> intro herr
        · cases herr
        · rcases List.mem_cons.mp hs with rfl | hs'
          · exact List.mem_map.mpr ⟨_, List.mem_cons_self _ _, rfl⟩
          · simp only [List.map_cons, List.mem_cons]
            exact Or.inr (ih herr s hs' htr)

end Scout

namespace Scout

/-- Every row the Gold loop inserts references a selected Silver row. -/
theorem goldLoop_rows_from_sel (brands : Brands) (mv dv : String) (sel : List SilverRow) :
    ∀ r ∈ (goldLoop brands mv dv sel).1, r.silverId ∈ sel.map SilverRow.id := by
  induction sel with
  | nil => intro r hr; cases hr
  | cons s0 rest ih =>
    intro r hr
    rw [goldLoop_cons] at hr
    revert hr
    rcases hst : s0.text with _ | t <;> dsimp only <;> intro hr
    · simp only [List.map_cons, List.mem_cons]
      exact Or.inr (ih r hr)
    · by_cases ht : t = ""
      · rw [if_pos ht] at hr
        simp only [List.map_cons, List.mem_cons]
        exact Or.inr (ih r hr)
      · rw [if_neg ht] at hr
        revert hr
        rcases hp : predict brands t mv dv with e | p <;> dsimp only <;> intro hr
        · cases hr
        · simp only [List.map_cons, List.mem_cons]
          rcases List.mem_cons.mp hr with rfl | hr'
          · exact Or.inl rfl
          · exact Or.inr (ih r hr')

/-- `goldNew` when the matcher's dictionary load raises. -/
theorem goldNew_err (st : Store) (file : FileState) (e : LoadError)
    (hld : loadDictionary file = .error e) :
    goldNew st file = ([], 0, some .dictLoadFailed) := by
  unfold goldNew; rw [hld]

/-- `goldNew` when the matcher's dictionary load succeeds. -/
theorem goldNew_ok (st : Store) (file : FileState) (brands : Brands)
    (hld : loadDictionary file = .ok brands) :
    goldNew st file =
      ((goldLoop brands "1.0.0" (getDictionaryVersion file) (goldSelect st)).1,
        (goldLoop brands "1.0.0" (getDictionaryVersion file) (goldSelect st)).2.1,
        (goldLoop brands "1.0.0" (getDictionaryVersion file) (goldSelect st)).2.2.map
          GoldError.pred) := by
  unfold goldNew; rw [hld]

/-- `gold_layer` written out over its two effects: the version upsert and
the appended prediction rows. -/
theorem goldLayer_eq (st : Store) (file : FileState) :
    goldLayer st file =
      ({ st with
          dictVersions := (etlLoadDictionary st.dictVersions file).1,
          gold := st.gold ++ (goldNew st file).1 },
        (goldNew st file).2.1, (goldNew st file).2.2) := rfl

/-- A completed Gold run reaches a fixed point: running Gold again with no
new upstream data changes nothing and generates zero predictions. -/
theorem goldLayer_idem (st : Store) (file : FileState) (st' : Store) (n : Nat)
    (h : goldLayer st file = (st', n, none)) :
    goldLayer st' file = (st', 0, none) := by
  rw [goldLayer_eq] at h
  rcases hld : loadDictionary file with e | brands
  · rw [goldNew_err st file e hld] at h
    simpa using congrArg (fun x : Store × Nat × Option GoldError => x.2.2) h
  · rw [goldNew_ok st file brands hld] at h
    have herr : (goldLoop brands "1.0.0" (getDictionaryVersion file) (goldSelect st)).2.2
        = none := by
      have h3 := congrArg (fun x : Store × Nat × Option GoldError => x.2.2) h
      dsimp only at h3
      rcases hx : (goldLoop brands "1.0.0" (getDictionaryVersion file) (goldSelect st)).2.2 with
        _ | e2
      · rfl
      · rw [hx] at h3; cases h3
    have hst' := congrArg Prod.fst h
    dsimp only at hst'
    subst hst'
    set rows := (goldLoop brands "1.0.0" (getDictionaryVersion file) (goldSelect st)).1 with hrows
    set st2 : Store :=
      { st with
        dictVersions := (etlLoadDictionary st.dictVersions file).1,
        gold := st.gold ++ rows } with hst2
    have hfalsy : ∀ s ∈ goldSelect st2, s.text.getD "" = "" := by
      intro s hs
      have hs' := List.mem_filter.mp hs
      rcases hs' with ⟨hmem, hpred⟩
      rw [decide_eq_true_iff] at hpred
      by_contra hne
      apply hpred
      show s.id ∈ st2.gold.map GoldRow.silverId
      have hgold2 : st2.gold = st.gold ++ rows := rfl
      rw [hgold2, List.map_append, List.mem_append]
      have hmem' : s ∈ st.silver := hmem
      by_cases hin : s.id ∈ st.gold.map GoldRow.silverId
      · exact Or.inl hin
      · have hsel : s ∈ goldSelect st :=
          List.mem_filter.mpr ⟨hmem', by rw [decide_eq_true_iff]; exact hin⟩
        exact Or.inr (goldLoop_covers brands "1.0.0" (getDictionaryVersion file)
          (goldSelect st) herr s hsel hne)
    have hloop2 : goldLoop brands "1.0.0" (getDictionaryVersion file) (goldSelect st2) =
        ([], 0, none) := goldLoop_all_falsy brands _ _ (goldSelect st2) hfalsy
    have hvers : (etlLoadDictionary st2.dictVersions file).1 = st2.dictVersions := by
      show (etlLoadDictionary (etlLoadDictionary st.dictVersions file).1 file).1 = _
      rw [etlLoadDictionary_idem]
    have hgold : st2.gold ++ ([] : List GoldRow) = st2.gold := List.append_nil _
    rw [goldLayer_eq, goldNew_ok st2 file brands hld, hloop2]
    simp [hvers, hgold]

end Scout

namespace Scout

/-- A completed Silver run reaches a fixed point. -/
theorem silverLayer_idem (st : Store) (i1 i2 : Nat) :
    silverLayer (silverLayer st i1).1 i2 = ((silverLayer st i1).1, 0) := by
  have h := silverSelect_after st i1
  simp only [silverLayer] at h
  simp only [silverLayer, h, mkSilverRows, List.append_nil, List.length_nil]

/-- C1: the Silver and Gold stages are idempotent and resumable.
(1) Re-running Silver right after a Silver run inserts zero rows and
leaves the store unchanged; (2) re-running Gold after a completed Gold run
inserts zero rows and leaves the store unchanged; (3) a Gold run never
touches the Bronze or Silver tables, whatever state it starts from
(including a partial state left by an earlier failure); (4) a Silver run
never touches Bronze or Gold; (5) every prediction a Gold run inserts is
for a Silver row selected by the not-yet-referenced query
(`id NOT IN (SELECT silver_id FROM gold)`), so work is driven entirely by
the "not yet processed" queries. -/
theorem silver_gold_idempotent_resumable :
    (∀ st i1 i2, silverLayer (silverLayer st i1).1 i2 = ((silverLayer st i1).1, 0)) ∧
    (∀ st file st' n, goldLayer st file = (st', n, none) →
      goldLayer st' file = (st', 0, none)) ∧
    (∀ st file, (goldLayer st file).1.bronze = st.bronze ∧
      (goldLayer st file).1.silver = st.silver) ∧
    (∀ st i, (silverLayer st i).1.bronze = st.bronze ∧
      (silverLayer st i).1.gold = st.gold) ∧
    (∀ st file, ((goldLayer st file).1.gold.drop st.gold.length).all
      (fun r => decide (r.silverId ∈ (goldSelect st).map SilverRow.id)) = true) := by
  refine ⟨silverLayer_idem, goldLayer_idem, fun st file => ⟨rfl, rfl⟩,
    fun st i => ⟨rfl, rfl⟩, fun st file => ?_⟩
  rw [goldLayer_eq]
  dsimp only
  rw [List.drop_left, List.all_eq_true]
  intro r hr
  rcases hld : loadDictionary file with e | brands
  · rw [goldNew_err st file e hld] at hr; cases hr
  · rw [goldNew_ok st file brands hld] at hr
    dsimp only at hr
    exact decide_eq_true
      (goldLoop_rows_from_sel brands "1.0.0" (getDictionaryVersion file) (goldSelect st) r hr)

/-- A small store: three Bronze rows (one without text), a Silver table
that references Bronze row 1 and holds one empty-text row, and no Gold
predictions yet. -/
def demoStore : Store :=
  ⟨[⟨1, some "pepsi"⟩, ⟨2, some "coke"⟩, ⟨3, none⟩],
   [⟨10, 1, some "pepsi"⟩, ⟨11, 5, some ""⟩],
   [], [], []⟩

/-- Witness for C1: on `demoStore` (where the first Silver run inserts a
row and the first Gold run, with the fallback dictionary, inserts a
prediction) the immediate re-runs insert zero rows and leave the store
unchanged. -/
theorem silver_gold_idempotent_resumable_witness :
    silverLayer (silverLayer demoStore 7).1 9 = ((silverLayer demoStore 7).1, 0) ∧
    goldLayer (goldLayer demoStore .missing).1 .missing =
      ((goldLayer demoStore .missing).1, 0, none) :=
  ⟨silver_gold_idempotent_resumable.1 demoStore 7 9,
    silver_gold_idempotent_resumable.2.1 demoStore .missing
      (goldLayer demoStore .missing).1 (goldLayer demoStore .missing).2.1 (by decide)⟩

end Scout
